import Mathlib

/-!
Verification of scripts/update_photoshop_template_path.py.

The development shallowly embeds the script over an explicit filesystem
model.  Paths are plain strings; the ambient state (existing regular
files, file contents, working directory, home directory, and the
canonicalization performed by Path.resolve) is a structure `FS`.

The fixed regular expression
  var templateFile = new File \x28 quote .*? quote \x29 ;
is embedded as exact character-list matching with a lazy inner segment
(`innerLen`), and `re.sub` with count 1 is embedded as `subFirst`,
including the replacement-template escape processing that the Python
`re` module applies to string replacements (`parse_template`).
-/

set_option maxHeartbeats 1000000

deriving instance DecidableEq for Except

namespace UpdateTemplate

/-- Quote character appearing in the fixed pattern. -/
def quoteChar : Char := '\''

/-- Opening literal text of REPLACEMENT_PATTERN, up to and including the
opening quote. -/
def patOpen : List Char := "var templateFile = new File(".toList ++ [quoteChar]

/-- Closing literal text of REPLACEMENT_PATTERN: quote, close bracket,
semicolon. -/
def patClose : List Char := [quoteChar, ')', ';']

/-- Length of the lazy inner segment of a match starting at the head of
the list: the regex fragment between the quotes is a lazy any-character
repetition, where the any-character class excludes the newline.  Returns
the shortest segment length such that the closing literal follows, or
none when a newline intervenes first or the list ends. -/
def innerLen : List Char → Option Nat
  | [] => none
  | c :: cs =>
    if patClose.isPrefixOf (c :: cs) then some 0
    else if c = '\n' then none
    else (innerLen cs).map (fun n => n + 1)

/-- Total length of a REPLACEMENT_PATTERN match starting at the head of
the list, or none when no match starts there. -/
def matchAt (l : List Char) : Option Nat :=
  if patOpen.isPrefixOf l then
    match innerLen (l.drop patOpen.length) with
    | some j => some (patOpen.length + j + patClose.length)
    | none => none
  else none

/-- Existence of a match anywhere in the list, as computed by re.search
scanning positions left to right. -/
def hasMatch : List Char → Bool
  | [] => false
  | c :: cs => (matchAt (c :: cs)).isSome || hasMatch cs

/-- One piece of a compiled replacement template: a literal character, or
a reference to group 0 (the whole match). -/
inductive ReplItem where
  | ch (c : Char)
  | group0
deriving DecidableEq

/-- Error message constants mirroring the Python re module errors raised
while parsing a replacement template. -/
def badEscapeEndMsg : String := "bad escape (end of pattern)"

/-- Message for a backslash followed by an ASCII letter with no assigned
escape meaning. -/
def badEscapeMsg : String := "bad escape"

/-- Message for a group reference to a group the pattern does not have. -/
def invalidGroupRefMsg : String := "invalid group reference"

/-- Message for a backslash-g not followed by an open angle bracket. -/
def missingLtMsg : String := "missing angle bracket after g escape"

/-- Message for an unterminated group name. -/
def unterminatedNameMsg : String := "missing close angle bracket, unterminated name"

/-- Message for an empty group name. -/
def missingGroupNameMsg : String := "missing group name"

/-- Message for a malformed group name. -/
def badGroupNameMsg : String := "bad character in group name"

/-- ASCII letter test, as used by the template parser. -/
def isAsciiLetter (c : Char) : Bool := ('a' ≤ c && c ≤ 'z') || ('A' ≤ c && c ≤ 'Z')

/-- Decimal digit test. -/
def isDigitCh (c : Char) : Bool := '0' ≤ c && c ≤ '9'

/-- Octal digit test. -/
def isOctCh (c : Char) : Bool := '0' ≤ c && c ≤ '7'

/-- Numeric value of a decimal digit character. -/
def digitVal (c : Char) : Nat := c.toNat - 48

/-- Decimal value of a digit list. -/
def digitsToNat (l : List Char) : Nat := l.foldl (fun a c => 10 * a + digitVal c) 0

/-- Octal value of a digit list. -/
def octToNat (l : List Char) : Nat := l.foldl (fun a c => 8 * a + digitVal c) 0

/-- Character denoted by an octal escape; the Python parser masks the
value with 0xff. -/
def octChar (l : List Char) : Char := Char.ofNat (octToNat l % 256)

/-- Single-character escapes recognized in replacement templates: the
seven ASCII control escapes and the escaped backslash. -/
def templateEscape (c : Char) : Option Char :=
  if c = 'a' then some (Char.ofNat 7)
  else if c = 'b' then some (Char.ofNat 8)
  else if c = 'f' then some (Char.ofNat 12)
  else if c = 'n' then some (Char.ofNat 10)
  else if c = 'r' then some (Char.ofNat 13)
  else if c = 't' then some (Char.ofNat 9)
  else if c = 'v' then some (Char.ofNat 11)
  else if c = '\\' then some '\\'
  else none

/-- Test for a character other than the close angle bracket, used to scan
a group name. -/
def notGt (c : Char) : Bool := !(c = '>')

/-- Message of the unreachable zero-fuel branch of the template parser. -/
def fuelMsg : String := "template parser out of fuel"

/-- Fuel-indexed body of the replacement-template parser.  Every step
consumes at least one input character while spending one unit of fuel,
so with fuel exceeding the input length the zero-fuel branch is
unreachable; the fuel only makes the recursion structural, keeping the
parser computable by kernel reduction. -/
def parse_template_fuel : Nat → List Char → Except String (List ReplItem)
  | 0, _ => Except.error fuelMsg
  | fuel + 1, l =>
    match l with
    | [] => Except.ok []
    | c :: rest =>
      if c = '\\' then
        match rest with
        | [] => Except.error badEscapeEndMsg
        | e :: r2 =>
          if e = 'g' then
            match r2 with
            | '<' :: r3 =>
              if (r3.dropWhile notGt).isEmpty then Except.error unterminatedNameMsg
              else if r3.takeWhile notGt = [] then Except.error missingGroupNameMsg
              else if (r3.takeWhile notGt).all isDigitCh then
                if digitsToNat (r3.takeWhile notGt) = 0 then
                  (parse_template_fuel fuel (r3.dropWhile notGt).tail).map
                    (fun items => ReplItem.group0 :: items)
                else Except.error invalidGroupRefMsg
              else Except.error badGroupNameMsg
            | _ => Except.error missingLtMsg
          else if e = '0' then
            match r2 with
            | [] => Except.ok [ReplItem.ch (Char.ofNat 0)]
            | d1 :: r3 =>
              if isOctCh d1 then
                match r3 with
                | d2 :: r4 =>
                  if isOctCh d2 then
                    (parse_template_fuel fuel r4).map
                      (fun items => ReplItem.ch (octChar [e, d1, d2]) :: items)
                  else (parse_template_fuel fuel (d2 :: r4)).map
                    (fun items => ReplItem.ch (octChar [e, d1]) :: items)
                | [] => Except.ok [ReplItem.ch (octChar [e, d1])]
              else (parse_template_fuel fuel (d1 :: r3)).map
                (fun items => ReplItem.ch (Char.ofNat 0) :: items)
          else if isDigitCh e then
            match r2 with
            | d2 :: r3 =>
              if isDigitCh d2 then
                match r3 with
                | d3 :: r4 =>
                  if isOctCh e && isOctCh d2 && isOctCh d3 then
                    (parse_template_fuel fuel r4).map
                      (fun items => ReplItem.ch (octChar [e, d2, d3]) :: items)
                  else Except.error invalidGroupRefMsg
                | [] => Except.error invalidGroupRefMsg
              else Except.error invalidGroupRefMsg
            | [] => Except.error invalidGroupRefMsg
          else
            match templateEscape e with
            | some ec => (parse_template_fuel fuel r2).map
                (fun items => ReplItem.ch ec :: items)
            | none =>
              if isAsciiLetter e then Except.error badEscapeMsg
              else (parse_template_fuel fuel r2).map
                (fun items => ReplItem.ch '\\' :: ReplItem.ch e :: items)
      else (parse_template_fuel fuel rest).map (fun items => ReplItem.ch c :: items)

/-- Replacement-template parser of the Python re module, specialized to a
pattern with no capture groups (so every group reference other than group
0 is invalid).  Modelled on re parse_template: escapes are processed,
group 0 references are kept symbolic, unknown escapes of ASCII letters
are errors, and a backslash before any other character is kept
verbatim. -/
def parse_template (l : List Char) : Except String (List ReplItem) :=
  parse_template_fuel (l.length + 1) l

/-- Expansion of a compiled replacement template at a concrete match:
literal characters stand for themselves and group 0 stands for the
matched text. -/
def expandTemplate (items : List ReplItem) (matched : List Char) : List Char :=
  (items.map (fun it =>
    match it with
    | ReplItem.ch c => [c]
    | ReplItem.group0 => matched)).flatten

/-- Substitution of the first match, as re.sub with count 1: scan
positions left to right, replace the first match by the expanded
template, keep everything else. -/
def subFirst (items : List ReplItem) : List Char → Option (List Char)
  | [] => none
  | c :: cs =>
    match matchAt (c :: cs) with
    | some len =>
      some (expandTemplate items ((c :: cs).take len) ++ (c :: cs).drop len)
    | none => (subFirst items cs).map (fun l => c :: l)

/-- Filesystem model: the set of existing regular files (by absolute
path), their contents, the current working directory, the home
directory, and the canonicalization function applied by Path.resolve
(absolute paths in, symlink-free canonical paths out). -/
structure FS where
  regularFiles : List String
  contents : String → String
  cwd : String
  home : String
  canon : String → String

/-- Path join with a single separator, as the pathlib slash operator on a
directory without a trailing separator. -/
def joinPath (d : String) (f : String) : String := d ++ String.mk ['/'] ++ f

/-- Expansion of the home-directory shorthand, as Path.expanduser for the
bare tilde and tilde-slash forms. -/
def expanduser (home : String) (p : String) : String :=
  match p.toList with
  | ['~'] => home
  | '~' :: '/' :: rest => home ++ String.mk ('/' :: rest)
  | _ => p

/-- Conversion of a possibly relative path to an absolute one against the
current working directory, as the operating system does for every
path-taking call. -/
def absolutize (cwd : String) (p : String) : String :=
  match p.toList with
  | '/' :: _ => p
  | _ => joinPath cwd p

/-- Regular-file test (Path.is_file): relative paths are interpreted
against the working directory. -/
def FS.isFile (fs : FS) (p : String) : Bool :=
  fs.regularFiles.contains (absolutize fs.cwd p)

/-- Path.resolve: make absolute, then canonicalize. -/
def FS.resolvePath (fs : FS) (p : String) : String :=
  fs.canon (absolutize fs.cwd p)

/-- Read the text of a file (Path.read_text). -/
def FS.readFile (fs : FS) (p : String) : String :=
  fs.contents (absolutize fs.cwd p)

/-- Overwrite the text of a file (Path.write_text). -/
def FS.writeFile (fs : FS) (p : String) (text : String) : FS :=
  { fs with contents := fun q => if q = absolutize fs.cwd p then text else fs.contents q }

/-- Fixed base name of the template asset. -/
def templateBaseName : String := "spirit_hex_grey.psd"

/-- Two consecutive dashes, used to build message text mentioning the
command-line option. -/
def dashDash : String := String.mk ['-', '-']

/-- Error message of the FileNotFoundError raised when no candidate
exists. -/
def notFoundMsg : String :=
  "Unable to locate spirit_hex_grey.psd. Pass " ++ dashDash ++
    "template /full/path/to/file.psd"

/-- Candidate resolution of resolve_template_path: when the cli value is
truthy (present and non-empty) the expanded explicit path is the only
candidate; otherwise the fixed base name is sought in the working
directory and then at the repository root.  The first candidate that is
an existing regular file is returned resolved; otherwise a
FileNotFoundError is raised, here the error branch. -/
def resolve_template_path (fs : FS) (cli_value : Option String) (repo_root : String) :
    Except String String :=
  let candidates : List String :=
    match cli_value with
    | some v =>
      if v.isEmpty then [joinPath fs.cwd templateBaseName, joinPath repo_root templateBaseName]
      else [expanduser fs.home v]
    | none => [joinPath fs.cwd templateBaseName, joinPath repo_root templateBaseName]
  match candidates.find? (fun c => fs.isFile c) with
  | some c => Except.ok (fs.resolvePath c)
  | none => Except.error notFoundMsg

/-- Command-line arguments after parsing: the optional template path and
the optional target file path. -/
structure Args where
  template : Option String
  jsx : Option String

/-- Relative location of the default target file under the repository
root. -/
def defaultJsxRel : String := "scripts/hex-spirit-game-print.jsx"

/-- Target file path: the explicit jsx option, or the default under the
repository root. -/
def jsxPath (repo_root : String) (args : Args) : String :=
  match args.jsx with
  | some p => p
  | none => joinPath repo_root defaultJsxRel

/-- Rendering of a path with forward slashes (Path.as_posix).  The model
fixes a POSIX platform, where the separator already is the forward slash
and the conversion is the identity on the string form. -/
def as_posix (p : String) : String := p

/-- Replacement line built in main: the pattern opening text, the
resolved path in forward-slash form, and the closing text. -/
def replacementLine (tp : String) : String :=
  String.mk (patOpen ++ ((as_posix tp).toList ++ patClose))

/-- Message of the RuntimeError raised when the pattern is absent. -/
def patternErrMsg : String := "Could not find templateFile line to update in the JSX file."

/-- Leading text of the FileNotFoundError message for a missing target
file. -/
def jsxMissingPre : String := "Could not find JSX file at "

/-- Leading text of the success message. -/
def updatedPre : String := "Updated template path in "

/-- Middle text of the success message. -/
def updatedMid : String := " to "

/-- Errors raised by the script, by Python exception class: the
FileNotFoundError for missing resources, the RuntimeError for a missing
pattern, and the re module error for a malformed replacement template. -/
inductive Err where
  | fileNotFound (msg : String)
  | runtimeError (msg : String)
  | reError (msg : String)
deriving DecidableEq

/-- Message text of an error, as str applied to the exception. -/
def Err.message : Err → String
  | Err.fileNotFound m => m
  | Err.runtimeError m => m
  | Err.reError m => m

/-- Body of main: resolve the template, require the target file, read it,
require a pattern match, substitute the first match, write back, and
report.  The returned pair carries the filesystem after the run and
either the success message printed to standard output or the raised
error. -/
def main (fs : FS) (repo_root : String) (args : Args) : FS × Except Err String :=
  match resolve_template_path fs args.template repo_root with
  | Except.error m => (fs, Except.error (Err.fileNotFound m))
  | Except.ok template_path =>
    if fs.isFile (jsxPath repo_root args) then
      if hasMatch (fs.readFile (jsxPath repo_root args)).toList then
        match parse_template (replacementLine template_path).toList with
        | Except.error m => (fs, Except.error (Err.reError m))
        | Except.ok items =>
          (fs.writeFile (jsxPath repo_root args)
            (match subFirst items (fs.readFile (jsxPath repo_root args)).toList with
              | some l => String.mk l
              | none => fs.readFile (jsxPath repo_root args)),
            Except.ok (updatedPre ++ jsxPath repo_root args ++ updatedMid ++ template_path))
      else (fs, Except.error (Err.runtimeError patternErrMsg))
    else (fs, Except.error (Err.fileNotFound (jsxMissingPre ++ jsxPath repo_root args)))

/-- Observable outcome of one process run: exit code, final filesystem,
standard output, standard error. -/
structure RunOutcome where
  exitCode : Nat
  fs : FS
  stdout : Option String
  stderr : Option String

/-- Occurrence test for a list as a contiguous segment of another list:
true when it occurs as a prefix at some position.  Used to state
hypotheses about paths free of the closing literal of the pattern. -/
def hasInfix (q : List Char) : List Char → Bool
  | [] => q.isEmpty
  | c :: rest => q.isPrefixOf (c :: rest) || hasInfix q rest

/-- Error stream prefix added by the top-level handler. -/
def errPre : String := "Error: "

/-- Top-level wrapper: a normal return of main exits with its return
value 0; every exception is caught, printed to the error stream with the
prefix, and turned into exit code 1. -/
def run (fs : FS) (repo_root : String) (args : Args) : RunOutcome :=
  match main fs repo_root args with
  | (fs2, Except.ok line) => ⟨0, fs2, some line, none⟩
  | (fs2, Except.error e) => ⟨1, fs2, none, some (errPre ++ e.message)⟩

/-- Empty string constant used by the concrete filesystem instances. -/
def emptyStr : String := ""

/-- Working directory of the concrete filesystem instances. -/
def cwdW : String := "/cwd"

/-- Home directory of the concrete filesystem instances. -/
def homeW : String := "/home/u"

/-- Repository root used by the concrete runs. -/
def rootW : String := "/repo"

/-- Target file path used by the concrete runs. -/
def jsxW : String := "/j.jsx"

/-- Identity canonicalization: the concrete instances have no symbolic
links. -/
def idCanon : String → String := fun p => p

/-- Target file content holding one pattern match around the text old. -/
def contentOld : String := String.mk (patOpen ++ ("old".toList ++ patClose))

/-- Target file content with no pattern match. -/
def contentNoMatch : String := "nothing to see here"

/-- Template location in the working directory of the concrete runs. -/
def tpW : String := joinPath cwdW templateBaseName

/-- Expected success message of the concrete runs resolving tpW. -/
def msgW : String := updatedPre ++ jsxW ++ updatedMid ++ tpW

/-- Explicit template path that exists in no concrete instance. -/
def missingP : String := "/missing.psd"

/-- Filesystem holding the template in the working directory and a target
file with one match. -/
def fsAll : FS :=
  { regularFiles := [tpW, jsxW],
    contents := fun q => if q = jsxW then contentOld else emptyStr,
    cwd := cwdW, home := homeW, canon := idCanon }

/-- Filesystem like fsAll, with a target file containing no match. -/
def fsNoMatch : FS :=
  { fsAll with contents := fun q => if q = jsxW then contentNoMatch else emptyStr }

/-- Filesystem holding only the target file, no template anywhere. -/
def fsJsxOnly : FS :=
  { regularFiles := [jsxW],
    contents := fun q => if q = jsxW then contentOld else emptyStr,
    cwd := cwdW, home := homeW, canon := idCanon }

/-- Filesystem with no regular files at all. -/
def fsNone : FS :=
  { regularFiles := [],
    contents := fun _ => emptyStr,
    cwd := cwdW, home := homeW, canon := idCanon }

/-- Filesystem holding only the template in the working directory; the
target file is absent. -/
def fsTplOnly : FS :=
  { regularFiles := [tpW],
    contents := fun _ => emptyStr,
    cwd := cwdW, home := homeW, canon := idCanon }

/-- Explicit template path written with the home-directory shorthand. -/
def tildeP : String := "~/x.psd"

/-- Arguments with no explicit template and the concrete target file. -/
def argsNone : Args := { template := none, jsx := some jsxW }

/-- Arguments with a missing explicit template and the concrete target
file. -/
def argsMissing : Args := { template := some missingP, jsx := some jsxW }

/-- Template path containing the closing literal of the pattern: quote,
close bracket, semicolon occur inside the file name. -/
def qPath : String := String.mk (['/', 'a'] ++ (patClose ++ "b.psd".toList))

/-- Filesystem holding the quote-path template and a target file with one
match. -/
def fsQ : FS :=
  { regularFiles := [qPath, jsxW],
    contents := fun q => if q = jsxW then contentOld else emptyStr,
    cwd := cwdW, home := homeW, canon := idCanon }

/-- Arguments selecting the quote-path template explicitly. -/
def argsQ : Args := { template := some qPath, jsx := some jsxW }

/-- Template path containing a backslash followed by the letter n. -/
def bsPath : String := String.mk (['/', 'a', '\\', 'n'] ++ ".psd".toList)

/-- Filesystem holding the backslash-path template and a target file with
one match. -/
def fsB : FS :=
  { regularFiles := [bsPath, jsxW],
    contents := fun q => if q = jsxW then contentOld else emptyStr,
    cwd := cwdW, home := homeW, canon := idCanon }

/-- Arguments selecting the backslash-path template explicitly. -/
def argsB : Args := { template := some bsPath, jsx := some jsxW }

/-- Content the backslash run actually writes: the escape processing of
re.sub turns the backslash-n of the path into a newline character. -/
def contentBWritten : String :=
  String.mk (patOpen ++ ((['/', 'a', '\n'] ++ ".psd".toList) ++ patClose))

/-- Content the backslash run would write were the path inserted
verbatim. -/
def contentBLiteral : String :=
  String.mk (patOpen ++ (bsPath.toList ++ patClose))

/-- Text near the end of the not-found message that instructs the caller
to pass an explicit path. -/
def passTemplateStr : String := "Pass " ++ dashDash ++ "template"

/-! Helper lemmas about the pattern machinery. -/

theorem isPrefixOf_append_self (l s : List Char) : l.isPrefixOf (l ++ s) = true := by
  rw [List.isPrefixOf_iff_prefix]
  exact List.prefix_append l s

theorem isPrefixOf_congr (q l1 l2 : List Char)
    (h : l1.take q.length = l2.take q.length) :
    q.isPrefixOf l1 = q.isPrefixOf l2 := by
  have hiff : q.isPrefixOf l1 = true ↔ q.isPrefixOf l2 = true := by
    rw [List.isPrefixOf_iff_prefix, List.isPrefixOf_iff_prefix,
      List.prefix_iff_eq_take, List.prefix_iff_eq_take, h]
  cases hb1 : q.isPrefixOf l1 with
  | true => exact (hiff.mp hb1).symm
  | false =>
    cases hb2 : q.isPrefixOf l2 with
    | true => exact absurd (hiff.mpr hb2) (by simp [hb1])
    | false => rfl

theorem take_patOpen_aux (p X : List Char) :
    (p ++ (patOpen ++ X)).take patOpen.length =
      p.take patOpen.length ++ patOpen.take (patOpen.length - p.length) := by
  rw [List.take_append_eq_append_take]
  congr 1
  rw [List.take_append_eq_append_take]
  have h0 : patOpen.length - p.length - patOpen.length = 0 := by omega
  rw [h0]
  simp

theorem drop_patOpen_aux (p X : List Char) :
    (p ++ (patOpen ++ X)).drop patOpen.length =
      (p ++ patOpen).drop patOpen.length ++ X := by
  rw [show p ++ (patOpen ++ X) = (p ++ patOpen) ++ X from (List.append_assoc p patOpen X).symm]
  rw [List.drop_append_eq_append_drop]
  have h0 : patOpen.length - (p ++ patOpen).length = 0 := by
    rw [List.length_append]
    omega
  rw [h0]
  simp

theorem drop_append_of_le (k : Nat) (p X : List Char) (hk : k ≤ p.length) :
    (p ++ X).drop k = p.drop k ++ X := by
  rw [List.drop_append_eq_append_drop]
  have h0 : k - p.length = 0 := by omega
  rw [h0]
  simp

theorem innerLen_close (s : List Char) : innerLen (patClose ++ s) = some 0 := by
  have he : patClose ++ s = quoteChar :: (')' :: (';' :: s)) := rfl
  rw [he, innerLen]
  have hp : patClose.isPrefixOf (quoteChar :: (')' :: (';' :: s))) = true := by
    rw [← he]
    exact isPrefixOf_append_self patClose s
  rw [if_pos hp]

theorem innerLen_ne_none_of_no_newline (v s : List Char) (hv : ∀ c ∈ v, c ≠ '\n') :
    innerLen (v ++ (patClose ++ s)) ≠ none := by
  induction v with
  | nil =>
    rw [List.nil_append, innerLen_close]
    simp
  | cons c v1 ih =>
    rw [List.cons_append, innerLen]
    by_cases hp : patClose.isPrefixOf (c :: (v1 ++ (patClose ++ s))) = true
    · rw [if_pos hp]
      simp
    · rw [if_neg hp]
      have hc : ¬ c = '\n' := hv c (by simp)
      rw [if_neg hc]
      intro hcon
      have h1 : innerLen (v1 ++ (patClose ++ s)) = none := Option.map_eq_none'.mp hcon
      exact ih (fun x hx => hv x (List.mem_cons_of_mem c hx)) h1

theorem hasInfix_cons_elim (q : List Char) (c : Char) (l : List Char)
    (h : hasInfix q (c :: l) = false) :
    q.isPrefixOf (c :: l) = false ∧ hasInfix q l = false := by
  rw [hasInfix] at h
  exact Bool.or_eq_false_iff.mp h

theorem innerLen_of_clean (t s : List Char)
    (hnl : ∀ c ∈ t, c ≠ '\n')
    (hni : hasInfix patClose t = false) :
    innerLen (t ++ (patClose ++ s)) = some t.length := by
  induction t with
  | nil =>
    rw [List.nil_append, innerLen_close]
    rfl
  | cons c t1 ih =>
    obtain ⟨hp0, hni1⟩ := hasInfix_cons_elim patClose c t1 hni
    have hp : patClose.isPrefixOf (c :: (t1 ++ (patClose ++ s))) = false := by
      rcases t1 with _ | ⟨x, t2⟩
      · have hb2 : ((')' : Char) == quoteChar) = false := by decide
        rw [show ([] : List Char) ++ (patClose ++ s) = quoteChar :: (')' :: (';' :: s)) from rfl]
        simp [patClose, List.isPrefixOf, hb2]
      · rcases t2 with _ | ⟨y, t3⟩
        · have hb3 : ((';' : Char) == quoteChar) = false := by decide
          rw [show ([x] : List Char) ++ (patClose ++ s) =
            x :: (quoteChar :: (')' :: (';' :: s))) from rfl]
          simp [patClose, List.isPrefixOf, hb3]
        · rw [show (x :: y :: t3) ++ (patClose ++ s) =
            x :: (y :: (t3 ++ (patClose ++ s))) from rfl]
          simp only [patClose, List.isPrefixOf] at hp0 ⊢
          simpa using hp0
    rw [List.cons_append, innerLen, if_neg (by simp [hp]), if_neg (hnl c (by simp))]
    rw [ih (fun x hx => hnl x (List.mem_cons_of_mem c hx)) hni1]
    rfl

theorem matchAt_clean (t s : List Char)
    (hnl : ∀ c ∈ t, c ≠ '\n')
    (hni : hasInfix patClose t = false) :
    matchAt ((patOpen ++ (t ++ patClose)) ++ s) =
      some (patOpen.length + t.length + patClose.length) := by
  rw [matchAt]
  have hassoc : (patOpen ++ (t ++ patClose)) ++ s = patOpen ++ (t ++ (patClose ++ s)) := by
    simp [List.append_assoc]
  have hpre : patOpen.isPrefixOf ((patOpen ++ (t ++ patClose)) ++ s) = true := by
    rw [hassoc]
    exact isPrefixOf_append_self patOpen (t ++ (patClose ++ s))
  rw [if_pos hpre]
  have hdrop : ((patOpen ++ (t ++ patClose)) ++ s).drop patOpen.length =
      t ++ (patClose ++ s) := by
    rw [hassoc]
    exact List.drop_left patOpen (t ++ (patClose ++ s))
  rw [hdrop, innerLen_of_clean t s hnl hni]

theorem innerLen_transfer (u im t s s2 : List Char)
    (him : ∀ c ∈ im, c ≠ '\n')
    (h : innerLen (u ++ (im ++ (patClose ++ s))) = none) :
    innerLen (u ++ (t ++ (patClose ++ s2))) = none := by
  induction u with
  | nil =>
    rw [List.nil_append] at h
    exact absurd h (innerLen_ne_none_of_no_newline im s him)
  | cons c u1 ih =>
    rw [List.cons_append] at h
    rw [List.cons_append, innerLen]
    rw [innerLen] at h
    by_cases hp : patClose.isPrefixOf (c :: (u1 ++ (im ++ (patClose ++ s)))) = true
    · rw [if_pos hp] at h
      exact absurd h (by simp)
    · rw [if_neg hp] at h
      by_cases hnl : c = '\n'
      · have hchar : (quoteChar == '\n') = false := by decide
        have hq : ¬ patClose.isPrefixOf (c :: (u1 ++ (t ++ (patClose ++ s2)))) = true := by
          subst hnl
          simp [patClose, List.isPrefixOf, hchar]
        rw [if_neg hq, if_pos hnl]
      · rw [if_neg hnl] at h
        have h1 : innerLen (u1 ++ (im ++ (patClose ++ s))) = none := Option.map_eq_none'.mp h
        have hq : ¬ patClose.isPrefixOf (c :: (u1 ++ (t ++ (patClose ++ s2)))) = true := by
          intro hq2
          rcases u1 with _ | ⟨x, u2⟩
          · exact absurd (by simpa using h1) (innerLen_ne_none_of_no_newline im s him)
          · rcases u2 with _ | ⟨y, u3⟩
            · have hx : x = ')' := by
                simp only [List.cons_append, List.nil_append] at hq2
                simp [patClose, List.isPrefixOf] at hq2
                exact hq2.2.1.symm
              have hxs : ∀ cc ∈ x :: im, cc ≠ '\n' := by
                intro cc hcc
                rcases List.mem_cons.mp hcc with hcc | hcc
                · subst hcc
                  rw [hx]
                  decide
                · exact him cc hcc
              have hnn := innerLen_ne_none_of_no_newline (x :: im) s hxs
              exact absurd (by simpa using h1) hnn
            · have hold : patClose.isPrefixOf
                  (c :: ((x :: y :: u3) ++ (im ++ (patClose ++ s)))) = false :=
                Bool.eq_false_iff.mpr hp
              simp only [List.cons_append] at hold hq2
              simp only [patClose, List.isPrefixOf] at hold hq2
              simp only [Bool.and_eq_true, beq_iff_eq] at hq2
              obtain ⟨e1, e2, e3, -⟩ := hq2
              simp [← e1, ← e2, ← e3, List.isPrefixOf] at hold
        rw [if_neg hq, if_neg hnl]
        have h2 : innerLen (u1 ++ (t ++ (patClose ++ s2))) = none := ih h1
        simp [h2]

theorem matchAt_transfer (p im t s s2 : List Char)
    (him : ∀ c ∈ im, c ≠ '\n')
    (h : matchAt (p ++ (patOpen ++ (im ++ (patClose ++ s)))) = none) :
    matchAt (p ++ (patOpen ++ (t ++ (patClose ++ s2)))) = none := by
  rw [matchAt] at h
  rw [matchAt]
  have hpre_eq : patOpen.isPrefixOf (p ++ (patOpen ++ (t ++ (patClose ++ s2)))) =
      patOpen.isPrefixOf (p ++ (patOpen ++ (im ++ (patClose ++ s)))) :=
    isPrefixOf_congr patOpen _ _ (by rw [take_patOpen_aux, take_patOpen_aux])
  by_cases hpre : patOpen.isPrefixOf (p ++ (patOpen ++ (im ++ (patClose ++ s)))) = true
  · rw [if_pos hpre] at h
    rw [drop_patOpen_aux] at h
    simp only [hpre_eq]
    rw [if_pos hpre, drop_patOpen_aux]
    cases hinn : innerLen ((p ++ patOpen).drop patOpen.length ++ (im ++ (patClose ++ s))) with
    | some j =>
      rw [hinn] at h
      exact absurd h (by simp)
    | none =>
      rw [innerLen_transfer ((p ++ patOpen).drop patOpen.length) im t s s2 him hinn]
  · simp only [hpre_eq]
    rw [if_neg hpre]

theorem matchAt_nil : matchAt [] = none := by decide

theorem innerLen_eq_some (v : List Char) (j : Nat) (h : innerLen v = some j) :
    ∃ im w, v = im ++ (patClose ++ w) ∧ im.length = j ∧ ∀ c ∈ im, c ≠ '\n' := by
  induction v generalizing j with
  | nil => simp [innerLen] at h
  | cons c cs ih =>
    rw [innerLen] at h
    by_cases hp : patClose.isPrefixOf (c :: cs) = true
    · rw [if_pos hp] at h
      have hj : j = 0 := by simpa using h.symm
      rw [List.isPrefixOf_iff_prefix] at hp
      obtain ⟨w, hw⟩ := hp
      refine ⟨[], w, ?_, by simp [hj], by simp⟩
      rw [List.nil_append, hw]
    · rw [if_neg hp] at h
      by_cases hnl : c = '\n'
      · rw [if_pos hnl] at h
        exact absurd h (by simp)
      · rw [if_neg hnl] at h
        simp only [Option.map_eq_some'] at h
        obtain ⟨j1, hj1, hjj⟩ := h
        obtain ⟨im, w, he, hlen, hnl2⟩ := ih j1 hj1
        refine ⟨c :: im, w, by simp [he], by simp [hlen, hjj], ?_⟩
        intro x hx
        rcases List.mem_cons.mp hx with hx | hx
        · rw [hx]
          exact hnl
        · exact hnl2 x hx

theorem matchAt_eq_some (l : List Char) (len : Nat) (h : matchAt l = some len) :
    ∃ im w, l = patOpen ++ (im ++ (patClose ++ w)) ∧
      len = patOpen.length + im.length + patClose.length ∧
      (∀ c ∈ im, c ≠ '\n') ∧
      l.take len = patOpen ++ (im ++ patClose) ∧ l.drop len = w := by
  rw [matchAt] at h
  by_cases hp : patOpen.isPrefixOf l = true
  · rw [if_pos hp] at h
    cases hinn : innerLen (l.drop patOpen.length) with
    | none =>
      rw [hinn] at h
      exact absurd h (by simp)
    | some j =>
      rw [hinn] at h
      have hlen : len = patOpen.length + j + patClose.length := by simpa using h.symm
      rw [List.isPrefixOf_iff_prefix] at hp
      obtain ⟨x, hx⟩ := hp
      have hdx : l.drop patOpen.length = x := by
        rw [← hx]
        exact List.drop_left patOpen x
      rw [hdx] at hinn
      obtain ⟨im, w, hxe, hjl, hnl⟩ := innerLen_eq_some x j hinn
      have hl : l = patOpen ++ (im ++ (patClose ++ w)) := by
        rw [← hx, hxe]
      have hlen2 : len = patOpen.length + im.length + patClose.length := by
        rw [hlen, hjl]
      have hassoc : l = (patOpen ++ (im ++ patClose)) ++ w := by
        rw [hl]
        simp [List.append_assoc]
      have hfront : (patOpen ++ (im ++ patClose)).length = len := by
        simp only [List.length_append]
        omega
      refine ⟨im, w, hl, hlen2, hnl, ?_, ?_⟩
      · rw [hassoc, ← hfront]
        exact List.take_left (patOpen ++ (im ++ patClose)) w
      · rw [hassoc, ← hfront]
        exact List.drop_left (patOpen ++ (im ++ patClose)) w
  · rw [if_neg hp] at h
    exact absurd h (by simp)

theorem subFirst_eq_some (items : List ReplItem) (l l2 : List Char)
    (h : subFirst items l = some l2) :
    ∃ p rest len, l = p ++ rest ∧ matchAt rest = some len ∧
      l2 = p ++ (expandTemplate items (rest.take len) ++ rest.drop len) ∧
      ∀ k, k < p.length → matchAt (l.drop k) = none := by
  induction l generalizing l2 with
  | nil => simp [subFirst] at h
  | cons c cs ih =>
    rw [subFirst] at h
    cases hm : matchAt (c :: cs) with
    | some len =>
      rw [hm] at h
      refine ⟨[], c :: cs, len, by simp, hm, ?_, by simp⟩
      have h2 : expandTemplate items ((c :: cs).take len) ++ (c :: cs).drop len = l2 := by
        simpa using h
      rw [List.nil_append, h2]
    | none =>
      rw [hm] at h
      simp only [Option.map_eq_some'] at h
      obtain ⟨l3, hl3, hco⟩ := h
      obtain ⟨p, rest, len, he, hm2, he2, hfirst⟩ := ih l3 hl3
      refine ⟨c :: p, rest, len, by simp [he], hm2, by simp [← hco, he2], ?_⟩
      intro k hk
      cases k with
      | zero => simpa using hm
      | succ k2 =>
        have hd2 : (c :: cs).drop (k2 + 1) = cs.drop k2 := by simp
        rw [hd2, he]
        have := hfirst k2 (by simpa using hk)
        rw [he] at this
        exact this

theorem subFirst_of_first (items : List ReplItem) (p rest : List Char) (len : Nat)
    (hfirst : ∀ k, k < p.length → matchAt ((p ++ rest).drop k) = none)
    (hm : matchAt rest = some len) :
    subFirst items (p ++ rest) =
      some (p ++ (expandTemplate items (rest.take len) ++ rest.drop len)) := by
  induction p with
  | nil =>
    rcases rest with _ | ⟨c, cs⟩
    · exact absurd hm (by simp [matchAt_nil])
    · rw [List.nil_append, subFirst, hm]
      rw [List.nil_append]
  | cons c p1 ih =>
    rw [List.cons_append, subFirst]
    have h0 : matchAt (c :: (p1 ++ rest)) = none := by
      have := hfirst 0 (by simp)
      simpa using this
    rw [h0]
    have ihh : subFirst items (p1 ++ rest) =
        some (p1 ++ (expandTemplate items (rest.take len) ++ rest.drop len)) := by
      refine ih ?_
      intro k hk
      have := hfirst (k + 1) (by simp only [List.length_cons]; omega)
      simpa using this
    rw [ihh]
    simp

theorem subFirst_isSome_eq (items : List ReplItem) (l : List Char) :
    (subFirst items l).isSome = hasMatch l := by
  induction l with
  | nil => simp [subFirst, hasMatch]
  | cons c cs ih =>
    rw [subFirst, hasMatch]
    cases hm : matchAt (c :: cs) with
    | some len => simp
    | none => simp [ih]

theorem parse_template_no_backslash (l : List Char) (h : '\\' ∉ l) :
    parse_template l = Except.ok (l.map ReplItem.ch) := by
  induction l with
  | nil => rfl
  | cons c rest ih =>
    have hc : ¬ c = '\\' := by
      intro he
      exact h (by simp [he])
    have hstep : parse_template (c :: rest) =
        (parse_template_fuel (rest.length + 1) rest).map
          (fun items => ReplItem.ch c :: items) := by
      show parse_template_fuel (rest.length + 1 + 1) (c :: rest) = _
      rw [parse_template_fuel.eq_def]
      simp [hc]
    have ih2 : parse_template_fuel (rest.length + 1) rest =
        Except.ok (rest.map ReplItem.ch) :=
      ih (fun hm => h (List.mem_cons_of_mem c hm))
    rw [hstep, ih2]
    rfl

theorem expandTemplate_map_ch (l m : List Char) :
    expandTemplate (l.map ReplItem.ch) m = l := by
  induction l with
  | nil => rfl
  | cons c rest ih =>
    simp only [expandTemplate, List.map_cons, List.map_map, List.flatten_cons] at ih ⊢
    rw [ih]
    rfl

/-! Helper lemmas about the program body. -/

theorem resolve_writeFile (fs : FS) (p t : String) (cli : Option String) (root : String) :
    resolve_template_path (fs.writeFile p t) cli root = resolve_template_path fs cli root := rfl

theorem isFile_writeFile (fs : FS) (p t q : String) :
    (fs.writeFile p t).isFile q = fs.isFile q := rfl

theorem readFile_writeFile_self (fs : FS) (p t : String) :
    (fs.writeFile p t).readFile p = t := by
  simp [FS.writeFile, FS.readFile]

theorem main_ok_elim (fs : FS) (root : String) (args : Args) (fs2 : FS) (out : String)
    (h : main fs root args = (fs2, Except.ok out)) :
    ∃ tp items, resolve_template_path fs args.template root = Except.ok tp ∧
      fs.isFile (jsxPath root args) = true ∧
      hasMatch (fs.readFile (jsxPath root args)).toList = true ∧
      parse_template (replacementLine tp).toList = Except.ok items ∧
      (∃ l, subFirst items (fs.readFile (jsxPath root args)).toList = some l ∧
        fs2 = fs.writeFile (jsxPath root args) (String.mk l)) ∧
      out = updatedPre ++ jsxPath root args ++ updatedMid ++ tp := by
  cases hres : resolve_template_path fs args.template root with
  | error m =>
    have hmain : main fs root args = (fs, Except.error (Err.fileNotFound m)) := by
      simp [main, hres]
    rw [hmain] at h
    simp at h
  | ok tp =>
    cases hjf : fs.isFile (jsxPath root args) with
    | false =>
      have hmain : main fs root args =
          (fs, Except.error (Err.fileNotFound (jsxMissingPre ++ jsxPath root args))) := by
        simp [main, hres, hjf]
      rw [hmain] at h
      simp at h
    | true =>
      cases hhm : hasMatch (fs.readFile (jsxPath root args)).toList with
      | false =>
        have hhm2 : hasMatch (fs.readFile (jsxPath root args)).data = false := hhm
        have hmain : main fs root args =
            (fs, Except.error (Err.runtimeError patternErrMsg)) := by
          simp [main, hres, hjf, hhm2]
        rw [hmain] at h
        simp at h
      | true =>
        have hhm2 : hasMatch (fs.readFile (jsxPath root args)).data = true := hhm
        cases hpt : parse_template (replacementLine tp).toList with
        | error m =>
          have hpt2 : parse_template (replacementLine tp).data = Except.error m := hpt
          have hmain : main fs root args = (fs, Except.error (Err.reError m)) := by
            simp [main, hres, hjf, hhm2, hpt2]
          rw [hmain] at h
          simp at h
        | ok items =>
          have hpt2 : parse_template (replacementLine tp).data = Except.ok items := hpt
          have hsome : (subFirst items (fs.readFile (jsxPath root args)).toList).isSome = true := by
            rw [subFirst_isSome_eq]
            exact hhm
          obtain ⟨l, hl⟩ := Option.isSome_iff_exists.mp hsome
          have hl2 : subFirst items (fs.readFile (jsxPath root args)).data = some l := hl
          have hmain : main fs root args =
              (fs.writeFile (jsxPath root args) (String.mk l),
                Except.ok (updatedPre ++ jsxPath root args ++ updatedMid ++ tp)) := by
            simp [main, hres, hjf, hhm2, hpt2, hl2]
          rw [hmain] at h
          rw [Prod.mk.injEq] at h
          obtain ⟨hfs2, hout⟩ := h
          refine ⟨tp, items, rfl, rfl, rfl, hpt, ⟨l, hl, hfs2.symm⟩, ?_⟩
          simpa using hout.symm

theorem main_snd_error (fs : FS) (root : String) (args : Args) (e : Err)
    (h : (main fs root args).2 = Except.error e) :
    main fs root args = (fs, Except.error e) := by
  cases hres : resolve_template_path fs args.template root with
  | error m =>
    have hmain : main fs root args = (fs, Except.error (Err.fileNotFound m)) := by
      simp [main, hres]
    rw [hmain] at h ⊢
    simp at h
    rw [h]
  | ok tp =>
    cases hjf : fs.isFile (jsxPath root args) with
    | false =>
      have hmain : main fs root args =
          (fs, Except.error (Err.fileNotFound (jsxMissingPre ++ jsxPath root args))) := by
        simp [main, hres, hjf]
      rw [hmain] at h ⊢
      simp at h
      rw [h]
    | true =>
      cases hhm : hasMatch (fs.readFile (jsxPath root args)).toList with
      | false =>
        have hhm2 : hasMatch (fs.readFile (jsxPath root args)).data = false := hhm
        have hmain : main fs root args =
            (fs, Except.error (Err.runtimeError patternErrMsg)) := by
          simp [main, hres, hjf, hhm2]
        rw [hmain] at h ⊢
        simp at h
        rw [h]
      | true =>
        have hhm2 : hasMatch (fs.readFile (jsxPath root args)).data = true := hhm
        cases hpt : parse_template (replacementLine tp).toList with
        | error m =>
          have hpt2 : parse_template (replacementLine tp).data = Except.error m := hpt
          have hmain : main fs root args = (fs, Except.error (Err.reError m)) := by
            simp [main, hres, hjf, hhm2, hpt2]
          rw [hmain] at h ⊢
          simp at h
          rw [h]
        | ok items =>
          have hpt2 : parse_template (replacementLine tp).data = Except.ok items := hpt
          have hsome : (subFirst items (fs.readFile (jsxPath root args)).toList).isSome = true := by
            rw [subFirst_isSome_eq]
            exact hhm
          obtain ⟨l, hl⟩ := Option.isSome_iff_exists.mp hsome
          have hl2 : subFirst items (fs.readFile (jsxPath root args)).data = some l := hl
          have hmain : main fs root args =
              (fs.writeFile (jsxPath root args) (String.mk l),
                Except.ok (updatedPre ++ jsxPath root args ++ updatedMid ++ tp)) := by
            simp [main, hres, hjf, hhm2, hpt2, hl2]
          rw [hmain] at h
          simp at h

/-! Characterization of template resolution. -/

theorem find?_pair (fs : FS) (c1 c2 : String) :
    List.find? (fun c => fs.isFile c) [c1, c2] =
      (if fs.isFile c1 then some c1 else if fs.isFile c2 then some c2 else none) := by
  by_cases h1 : fs.isFile c1 = true
  · simp [List.find?, h1]
  · have h1f := Bool.eq_false_iff.mpr h1
    by_cases h2 : fs.isFile c2 = true
    · simp [List.find?, h1f, h2]
    · have h2f := Bool.eq_false_iff.mpr h2
      simp [List.find?, h1f, h2f]

theorem find?_single (fs : FS) (c1 : String) :
    List.find? (fun c => fs.isFile c) [c1] =
      (if fs.isFile c1 then some c1 else none) := by
  by_cases h1 : fs.isFile c1 = true
  · simp [List.find?, h1]
  · have h1f := Bool.eq_false_iff.mpr h1
    simp [List.find?, h1f]

theorem resolve_none_eq (fs : FS) (root : String) :
    resolve_template_path fs none root =
      (if fs.isFile (joinPath fs.cwd templateBaseName) then
        Except.ok (fs.resolvePath (joinPath fs.cwd templateBaseName))
      else if fs.isFile (joinPath root templateBaseName) then
        Except.ok (fs.resolvePath (joinPath root templateBaseName))
      else Except.error notFoundMsg) := by
  simp only [resolve_template_path]
  rw [find?_pair]
  by_cases h1 : fs.isFile (joinPath fs.cwd templateBaseName) = true
  · simp [h1]
  · have h1f := Bool.eq_false_iff.mpr h1
    by_cases h2 : fs.isFile (joinPath root templateBaseName) = true
    · simp [h1f, h2]
    · have h2f := Bool.eq_false_iff.mpr h2
      simp [h1f, h2f]

theorem resolve_empty_eq (fs : FS) (root : String) (v : String) (hv : v.isEmpty = true) :
    resolve_template_path fs (some v) root = resolve_template_path fs none root := by
  simp only [resolve_template_path, hv, if_true]

theorem resolve_some_eq (fs : FS) (root : String) (v : String) (hv : v.isEmpty = false) :
    resolve_template_path fs (some v) root =
      (if fs.isFile (expanduser fs.home v) then
        Except.ok (fs.resolvePath (expanduser fs.home v))
      else Except.error notFoundMsg) := by
  simp only [resolve_template_path, hv, Bool.false_eq_true, if_false]
  rw [find?_single]
  by_cases h1 : fs.isFile (expanduser fs.home v) = true
  · simp [h1]
  · have h1f := Bool.eq_false_iff.mpr h1
    simp [h1f]

theorem resolve_all_missing (fs : FS) (root : String) (cli : Option String)
    (h1 : ∀ v, cli = some v → v.isEmpty = false → fs.isFile (expanduser fs.home v) = false)
    (h2 : fs.isFile (joinPath fs.cwd templateBaseName) = false)
    (h3 : fs.isFile (joinPath root templateBaseName) = false) :
    resolve_template_path fs cli root = Except.error notFoundMsg := by
  cases cli with
  | none =>
    rw [resolve_none_eq]
    simp [h2, h3]
  | some v =>
    by_cases hv : v.isEmpty = true
    · rw [resolve_empty_eq fs root v hv, resolve_none_eq]
      simp [h2, h3]
    · have hvf : v.isEmpty = false := Bool.eq_false_iff.mpr hv
      rw [resolve_some_eq fs root v hvf]
      simp [h1 v rfl hvf]

/-! Claim theorems. -/

/-- C1 (amended): resolve_template_path uses the home-expanded explicit
path as the sole candidate whenever the template option is supplied and
non-empty: it returns its resolved form when that path is an existing
regular file and fails with the not-found error otherwise, without
consulting the fallback locations; only when the option is absent or
empty are the working-directory candidate and then the repository-root
candidate tried in that order, the first existing one returned
resolved. -/
theorem resolve_template_path_candidate_order (fs : FS) (root : String) (cli : Option String) :
    resolve_template_path fs cli root =
      match cli with
      | some v =>
        if v.isEmpty then
          (if fs.isFile (joinPath fs.cwd templateBaseName) then
            Except.ok (fs.resolvePath (joinPath fs.cwd templateBaseName))
          else if fs.isFile (joinPath root templateBaseName) then
            Except.ok (fs.resolvePath (joinPath root templateBaseName))
          else Except.error notFoundMsg)
        else if fs.isFile (expanduser fs.home v) then
          Except.ok (fs.resolvePath (expanduser fs.home v))
        else Except.error notFoundMsg
      | none =>
        if fs.isFile (joinPath fs.cwd templateBaseName) then
          Except.ok (fs.resolvePath (joinPath fs.cwd templateBaseName))
        else if fs.isFile (joinPath root templateBaseName) then
          Except.ok (fs.resolvePath (joinPath root templateBaseName))
        else Except.error notFoundMsg := by
  cases cli with
  | none => exact resolve_none_eq fs root
  | some v =>
    by_cases hv : v.isEmpty = true
    · rw [resolve_empty_eq fs root v hv, resolve_none_eq]
      simp [hv]
    · have hvf : v.isEmpty = false := Bool.eq_false_iff.mpr hv
      rw [resolve_some_eq fs root v hvf]
      simp [hvf]

/-- C1 counterexample: an explicit template path that is not an existing
file while the working-directory fallback does exist; the claimed
ordered-candidate semantics would return the fallback, but the program
raises the not-found error, because with an explicit path the fallbacks
are never candidates. -/
theorem resolve_template_path_fallback_not_tried_cex :
    fsAll.isFile missingP = false ∧
    fsAll.isFile (joinPath fsAll.cwd templateBaseName) = true ∧
    resolve_template_path fsAll (some missingP) rootW = Except.error notFoundMsg ∧
    resolve_template_path fsAll (some missingP) rootW ≠
      Except.ok (fsAll.resolvePath (joinPath fsAll.cwd templateBaseName)) := by
  decide

/-- C8: before the regular-file test on an explicit candidate, the
candidate is home-expanded and interpreted against the working directory:
the test performed is membership of the absolutized expansion among the
regular files, and the value returned on success is its canonical form. -/
theorem resolve_explicit_expanded_before_check (fs : FS) (root : String) (v : String)
    (hv : v.isEmpty = false) :
    resolve_template_path fs (some v) root =
      (if fs.regularFiles.contains (absolutize fs.cwd (expanduser fs.home v)) then
        Except.ok (fs.canon (absolutize fs.cwd (expanduser fs.home v)))
      else Except.error notFoundMsg) := by
  rw [resolve_some_eq fs root v hv]
  rfl

theorem resolve_explicit_expanded_before_check_witness :
    resolve_template_path fsAll (some tildeP) rootW =
      (if fsAll.regularFiles.contains (absolutize fsAll.cwd (expanduser fsAll.home tildeP)) then
        Except.ok (fsAll.canon (absolutize fsAll.cwd (expanduser fsAll.home tildeP)))
      else Except.error notFoundMsg) :=
  resolve_explicit_expanded_before_check fsAll rootW tildeP (by decide)

/-- C4: when no candidate is an existing regular file the run exits 1
carrying the unchanged filesystem, the not-found message is printed to
the error stream behind the Error prefix, and that message mentions the
expected template base name and instructs the caller to pass an explicit
path. -/
theorem run_no_candidate_error (fs : FS) (root : String) (args : Args)
    (h1 : ∀ v, args.template = some v → v.isEmpty = false →
      fs.isFile (expanduser fs.home v) = false)
    (h2 : fs.isFile (joinPath fs.cwd templateBaseName) = false)
    (h3 : fs.isFile (joinPath root templateBaseName) = false) :
    run fs root args = ⟨1, fs, none, some (errPre ++ notFoundMsg)⟩ ∧
    hasInfix templateBaseName.toList notFoundMsg.toList = true ∧
    hasInfix passTemplateStr.toList notFoundMsg.toList = true := by
  have hres := resolve_all_missing fs root args.template h1 h2 h3
  have hmain : main fs root args = (fs, Except.error (Err.fileNotFound notFoundMsg)) := by
    simp [main, hres]
  refine ⟨?_, by decide, by decide⟩
  simp [run, hmain, Err.message]

theorem run_no_candidate_error_witness :
    run fsNone rootW argsMissing = ⟨1, fsNone, none, some (errPre ++ notFoundMsg)⟩ ∧
    hasInfix templateBaseName.toList notFoundMsg.toList = true ∧
    hasInfix passTemplateStr.toList notFoundMsg.toList = true :=
  run_no_candidate_error fsNone rootW argsMissing
    (by
      intro v hv hne
      have hv2 : some missingP = some v := hv
      injection hv2 with h2
      subst h2
      decide)
    (by decide) (by decide)

/-- C9: template resolution happens before the target-file check: whenever
no template candidate exists, the run reports the template not-found
error and exits 1, with no condition at all on the target file. -/
theorem run_template_error_precedes_jsx_check (fs : FS) (root : String) (args : Args)
    (h1 : ∀ v, args.template = some v → v.isEmpty = false →
      fs.isFile (expanduser fs.home v) = false)
    (h2 : fs.isFile (joinPath fs.cwd templateBaseName) = false)
    (h3 : fs.isFile (joinPath root templateBaseName) = false) :
    run fs root args = ⟨1, fs, none, some (errPre ++ notFoundMsg)⟩ := by
  have hres := resolve_all_missing fs root args.template h1 h2 h3
  have hmain : main fs root args = (fs, Except.error (Err.fileNotFound notFoundMsg)) := by
    simp [main, hres]
  simp [run, hmain, Err.message]

theorem run_template_error_precedes_jsx_check_witness :
    fsJsxOnly.isFile (jsxPath rootW argsNone) = true ∧
    run fsJsxOnly rootW argsNone = ⟨1, fsJsxOnly, none, some (errPre ++ notFoundMsg)⟩ :=
  ⟨by decide,
    run_template_error_precedes_jsx_check fsJsxOnly rootW argsNone
      (fun v hv _ => Option.noConfusion hv) (by decide) (by decide)⟩

/-- C5: when the target file is not an existing regular file, main raises
a FileNotFoundError (for the template when resolution already failed,
else for the target) and the run exits 1 with the message on the error
stream and the filesystem unchanged. -/
theorem run_jsx_missing_error (fs : FS) (root : String) (args : Args)
    (hjf : fs.isFile (jsxPath root args) = false) :
    ∃ m, main fs root args = (fs, Except.error (Err.fileNotFound m)) ∧
      run fs root args = ⟨1, fs, none, some (errPre ++ m)⟩ := by
  cases hres : resolve_template_path fs args.template root with
  | error m =>
    have hmain : main fs root args = (fs, Except.error (Err.fileNotFound m)) := by
      simp [main, hres]
    exact ⟨m, hmain, by simp [run, hmain, Err.message]⟩
  | ok tp =>
    have hmain : main fs root args =
        (fs, Except.error (Err.fileNotFound (jsxMissingPre ++ jsxPath root args))) := by
      simp [main, hres, hjf]
    exact ⟨jsxMissingPre ++ jsxPath root args, hmain, by simp [run, hmain, Err.message]⟩

theorem run_jsx_missing_error_witness :
    ∃ m, main fsTplOnly rootW argsNone = (fsTplOnly, Except.error (Err.fileNotFound m)) ∧
      run fsTplOnly rootW argsNone = ⟨1, fsTplOnly, none, some (errPre ++ m)⟩ :=
  run_jsx_missing_error fsTplOnly rootW argsNone (by decide)

/-- C3: with the template resolved and the target file present but its
content containing no pattern match, main raises the RuntimeError with
the pattern message before any write, and the run exits 1 carrying the
unchanged filesystem and printing the message to the error stream. -/
theorem run_pattern_missing_error (fs : FS) (root : String) (args : Args)
    (htp : ∃ tp, resolve_template_path fs args.template root = Except.ok tp)
    (hjf : fs.isFile (jsxPath root args) = true)
    (hnm : hasMatch (fs.readFile (jsxPath root args)).toList = false) :
    main fs root args = (fs, Except.error (Err.runtimeError patternErrMsg)) ∧
    run fs root args = ⟨1, fs, none, some (errPre ++ patternErrMsg)⟩ := by
  obtain ⟨tp, hres⟩ := htp
  have hnm2 : hasMatch (fs.readFile (jsxPath root args)).data = false := hnm
  have hmain : main fs root args = (fs, Except.error (Err.runtimeError patternErrMsg)) := by
    simp [main, hres, hjf, hnm2]
  exact ⟨hmain, by simp [run, hmain, Err.message]⟩

theorem run_pattern_missing_error_witness :
    main fsNoMatch rootW argsNone = (fsNoMatch, Except.error (Err.runtimeError patternErrMsg)) ∧
    run fsNoMatch rootW argsNone = ⟨1, fsNoMatch, none, some (errPre ++ patternErrMsg)⟩ :=
  run_pattern_missing_error fsNoMatch rootW argsNone ⟨tpW, by decide⟩ (by decide) (by decide)

/-- C6: every run either exits 0 having printed the single confirmation
line naming the target file and the path written into it, or exits 1
with the raised error printed to the error stream behind the Error
prefix and the filesystem unchanged; every error reaches the outcome
only through this top-level translation. -/
theorem run_exit_code_dichotomy (fs : FS) (root : String) (args : Args) :
    (∃ fs2 tp, resolve_template_path fs args.template root = Except.ok tp ∧
      run fs root args =
        ⟨0, fs2, some (updatedPre ++ jsxPath root args ++ updatedMid ++ tp), none⟩) ∨
    (∃ e, main fs root args = (fs, Except.error e) ∧
      run fs root args = ⟨1, fs, none, some (errPre ++ e.message)⟩) := by
  cases hm2 : (main fs root args).2 with
  | ok out =>
    left
    obtain ⟨fs2, hpair⟩ : ∃ fs2, main fs root args = (fs2, Except.ok out) := by
      refine ⟨(main fs root args).1, ?_⟩
      rw [← hm2]
    obtain ⟨tp, items, hres, hjf, hhm, hpt, ⟨l, hl, hfs2⟩, hout⟩ :=
      main_ok_elim fs root args fs2 out hpair
    refine ⟨fs2, tp, hres, ?_⟩
    rw [hout] at hpair
    simp [run, hpair]
  | error e =>
    right
    have hmain := main_snd_error fs root args e hm2
    exact ⟨e, hmain, by simp [run, hmain]⟩

/-- C10: error exits are atomic for the target file: whenever main raises,
the filesystem it returns is the input one unchanged, and the run carries
that unchanged filesystem with exit code 1. -/
theorem main_error_leaves_fs_unchanged (fs : FS) (root : String) (args : Args) (e : Err)
    (h : (main fs root args).2 = Except.error e) :
    (main fs root args).1 = fs ∧
    run fs root args = ⟨1, fs, none, some (errPre ++ e.message)⟩ := by
  have hmain := main_snd_error fs root args e h
  constructor
  · rw [hmain]
  · simp [run, hmain]

theorem main_error_leaves_fs_unchanged_witness :
    (main fsNone rootW argsNone).1 = fsNone ∧
    run fsNone rootW argsNone =
      ⟨1, fsNone, none, some (errPre ++ (Err.fileNotFound notFoundMsg).message)⟩ :=
  main_error_leaves_fs_unchanged fsNone rootW argsNone (Err.fileNotFound notFoundMsg) (by decide)

/-- C2 (amended): in every successful run whose resolved template path
contains no backslash, the first pattern match of the target content is
replaced by the replacement line holding the resolved path in
forward-slash form, every byte outside the replaced segment is kept, and
the result is written back to the same target path.  A backslash in the
path is instead subject to the replacement-template escape processing of
re.sub, so the path is not always inserted verbatim (see the
counterexample). -/
theorem main_success_rewrites_first_match (fs : FS) (root : String) (args : Args)
    (fs2 : FS) (out tp : String)
    (hres : resolve_template_path fs args.template root = Except.ok tp)
    (hbs : '\\' ∉ (as_posix tp).toList)
    (h : main fs root args = (fs2, Except.ok out)) :
    ∃ p rest len,
      (fs.readFile (jsxPath root args)).toList = p ++ rest ∧
      matchAt rest = some len ∧
      (∀ k, k < p.length → matchAt ((p ++ rest).drop k) = none) ∧
      fs2 = fs.writeFile (jsxPath root args)
        (String.mk (p ++ ((replacementLine tp).toList ++ rest.drop len))) := by
  obtain ⟨tp2, items, hres2, hjf, hhm, hpt, ⟨l, hl, hfs2⟩, hout⟩ :=
    main_ok_elim fs root args fs2 out h
  rw [hres] at hres2
  injection hres2 with htp
  subst htp
  have hreplList : (replacementLine tp).toList =
      patOpen ++ ((as_posix tp).toList ++ patClose) := rfl
  have hbs2 : '\\' ∉ (replacementLine tp).toList := by
    rw [hreplList]
    intro hmem
    rcases List.mem_append.mp hmem with hm1 | hm2
    · exact absurd hm1 (by decide)
    · rcases List.mem_append.mp hm2 with hm3 | hm4
      · exact hbs hm3
      · exact absurd hm4 (by decide)
  have hpl := parse_template_no_backslash (replacementLine tp).toList hbs2
  rw [hpt] at hpl
  injection hpl with hitems
  subst hitems
  obtain ⟨p, rest, len, hdecomp, hmA, hle, hfirst⟩ :=
    subFirst_eq_some _ (fs.readFile (jsxPath root args)).toList l hl
  refine ⟨p, rest, len, hdecomp, hmA, ?_, ?_⟩
  · intro k hk
    have hk2 := hfirst k hk
    rw [hdecomp] at hk2
    exact hk2
  · rw [hfs2, hle, expandTemplate_map_ch]

theorem main_success_rewrites_first_match_witness :
    ∃ p rest len,
      (fsAll.readFile (jsxPath rootW argsNone)).toList = p ++ rest ∧
      matchAt rest = some len ∧
      (∀ k, k < p.length → matchAt ((p ++ rest).drop k) = none) ∧
      (main fsAll rootW argsNone).1 = fsAll.writeFile (jsxPath rootW argsNone)
        (String.mk (p ++ ((replacementLine tpW).toList ++ rest.drop len))) :=
  main_success_rewrites_first_match fsAll rootW argsNone
    (main fsAll rootW argsNone).1 msgW tpW
    (by decide) (by decide) (Prod.ext rfl (by decide))

/-- C2 counterexample: a template path containing a backslash followed by
the letter n; the run succeeds, but the re.sub escape processing turns
the two characters into one newline character, so the file written does
not hold the resolved path verbatim and a byte of the replacement
differs from the claimed line. -/
theorem main_success_escape_processing_cex :
    ('\\' ∈ bsPath.toList) ∧
    (main fsB rootW argsB).2 = Except.ok (updatedPre ++ jsxW ++ updatedMid ++ bsPath) ∧
    (main fsB rootW argsB).1.readFile jsxW = contentBWritten ∧
    contentBLiteral = String.mk (patOpen ++ (bsPath.toList ++ patClose)) ∧
    (main fsB rootW argsB).1.readFile jsxW ≠ contentBLiteral := by
  decide

/-- C7 (amended): the rewrite is idempotent for well-behaved template
paths: when a first run succeeds and the resolved path in forward-slash
form contains no newline, no backslash, and no occurrence of the closing
literal quote-bracket-semicolon, a second run with the same arguments
succeeds with the same output line and leaves the contents of every file
pointwise unchanged.  Paths containing the closing literal break the
idempotence (see the counterexample). -/
theorem main_idempotent_on_clean_paths (fs : FS) (root : String) (args : Args)
    (fs1 : FS) (out1 tp : String)
    (hres : resolve_template_path fs args.template root = Except.ok tp)
    (h1 : main fs root args = (fs1, Except.ok out1))
    (hnl : ∀ c ∈ (as_posix tp).toList, c ≠ '\n')
    (hni : hasInfix patClose (as_posix tp).toList = false)
    (hbs : '\\' ∉ (as_posix tp).toList) :
    ∃ fs2, main fs1 root args = (fs2, Except.ok out1) ∧
      ∀ q, fs2.contents q = fs1.contents q := by
  obtain ⟨tp2, items, hres2, hjf, hhm, hpt, ⟨l, hl, hfs1⟩, hout⟩ :=
    main_ok_elim fs root args fs1 out1 h1
  rw [hres] at hres2
  injection hres2 with htp
  subst htp
  have hreplList : (replacementLine tp).toList =
      patOpen ++ ((as_posix tp).toList ++ patClose) := rfl
  have hbs2 : '\\' ∉ (replacementLine tp).toList := by
    rw [hreplList]
    intro hmem
    rcases List.mem_append.mp hmem with hm1 | hm2
    · exact absurd hm1 (by decide)
    · rcases List.mem_append.mp hm2 with hm3 | hm4
      · exact hbs hm3
      · exact absurd hm4 (by decide)
  have hpl := parse_template_no_backslash (replacementLine tp).toList hbs2
  rw [hpt] at hpl
  injection hpl with hitems
  subst hitems
  obtain ⟨p, rest, len, hdecomp, hmA, hle, hfirst⟩ :=
    subFirst_eq_some _ (fs.readFile (jsxPath root args)).toList l hl
  obtain ⟨im, w, hrest, hlen, himNL, htake, hdrop⟩ := matchAt_eq_some rest len hmA
  have hl_eq : l = p ++ ((replacementLine tp).toList ++ w) := by
    rw [hle, expandTemplate_map_ch, hdrop]
  have hfirst2 : ∀ k, k < p.length →
      matchAt ((p ++ ((replacementLine tp).toList ++ w)).drop k) = none := by
    intro k hk
    have hold := hfirst k hk
    rw [hdecomp] at hold
    rw [hrest] at hold
    rw [drop_append_of_le k p _ (le_of_lt hk)] at hold
    have hnew := matchAt_transfer (p.drop k) im (as_posix tp).toList w w himNL hold
    rw [drop_append_of_le k p _ (le_of_lt hk), hreplList]
    have hassoc2 : (patOpen ++ ((as_posix tp).toList ++ patClose)) ++ w =
        patOpen ++ ((as_posix tp).toList ++ (patClose ++ w)) := by
      simp [List.append_assoc]
    rw [hassoc2]
    exact hnew
  have hmt := matchAt_clean (as_posix tp).toList w hnl hni
  have hm2 : matchAt ((replacementLine tp).toList ++ w) =
      some (replacementLine tp).toList.length := by
    rw [hreplList, hmt]
    simp [List.length_append, Nat.add_assoc]
  have hsub2 : subFirst ((replacementLine tp).toList.map ReplItem.ch)
      (p ++ ((replacementLine tp).toList ++ w)) =
      some (p ++ ((replacementLine tp).toList ++ w)) := by
    have hsf := subFirst_of_first ((replacementLine tp).toList.map ReplItem.ch) p
      ((replacementLine tp).toList ++ w) (replacementLine tp).toList.length hfirst2 hm2
    rw [List.take_left, List.drop_left, expandTemplate_map_ch] at hsf
    exact hsf
  have hread1 : fs1.readFile (jsxPath root args) =
      String.mk (p ++ ((replacementLine tp).toList ++ w)) := by
    rw [hfs1, readFile_writeFile_self, hl_eq]
  have hres1 : resolve_template_path fs1 args.template root = Except.ok tp := by
    rw [hfs1, resolve_writeFile]
    exact hres
  have hjf1 : fs1.isFile (jsxPath root args) = true := by
    rw [hfs1, isFile_writeFile]
    exact hjf
  have hhm1 : hasMatch (fs1.readFile (jsxPath root args)).data = true := by
    rw [hread1]
    have hiso : (subFirst ((replacementLine tp).toList.map ReplItem.ch)
        (p ++ ((replacementLine tp).toList ++ w))).isSome = true := by
      rw [hsub2]
      rfl
    rw [← subFirst_isSome_eq ((replacementLine tp).toList.map ReplItem.ch)]
    exact hiso
  have hpt1 : parse_template (replacementLine tp).data =
      Except.ok ((replacementLine tp).data.map ReplItem.ch) :=
    parse_template_no_backslash (replacementLine tp).toList hbs2
  have hsub1 : subFirst ((replacementLine tp).data.map ReplItem.ch)
      (fs1.readFile (jsxPath root args)).data =
      some (p ++ ((replacementLine tp).data ++ w)) := by
    rw [hread1]
    exact hsub2
  have hmain2 : main fs1 root args =
      (fs1.writeFile (jsxPath root args)
        (String.mk (p ++ ((replacementLine tp).data ++ w))),
        Except.ok (updatedPre ++ jsxPath root args ++ updatedMid ++ tp)) := by
    simp [main, hres1, hjf1, hhm1, hpt1, hsub1]
  have hl_eq2 : l = p ++ ((replacementLine tp).data ++ w) := hl_eq
  refine ⟨fs1.writeFile (jsxPath root args)
    (String.mk (p ++ ((replacementLine tp).data ++ w))), ?_, ?_⟩
  · rw [hmain2, hout]
  · intro q
    rw [hfs1, hl_eq2]
    by_cases hq : q = absolutize fs.cwd (jsxPath root args) <;> simp [FS.writeFile, hq]

theorem main_idempotent_on_clean_paths_witness :
    ∃ fs2, main (main fsAll rootW argsNone).1 rootW argsNone = (fs2, Except.ok msgW) ∧
      ∀ q, fs2.contents q = (main fsAll rootW argsNone).1.contents q :=
  main_idempotent_on_clean_paths fsAll rootW argsNone (main fsAll rootW argsNone).1 msgW tpW
    (by decide) (Prod.ext rfl (by decide)) (by decide) (by decide) (by decide)

/-- C7 counterexample: with a template path containing the closing
literal, the first run succeeds and the second run also succeeds, but
the second run changes the target content again, so running twice does
not preserve the content produced by the first run. -/
theorem main_not_idempotent_quote_path_cex :
    (main fsQ rootW argsQ).2 = Except.ok (updatedPre ++ jsxW ++ updatedMid ++ qPath) ∧
    (main (main fsQ rootW argsQ).1 rootW argsQ).2 =
      Except.ok (updatedPre ++ jsxW ++ updatedMid ++ qPath) ∧
    (main (main fsQ rootW argsQ).1 rootW argsQ).1.readFile jsxW ≠
      (main fsQ rootW argsQ).1.readFile jsxW := by
  decide

end UpdateTemplate
